import Mathlib

/-!
Verification of the Neural Flasher firmware-flashing engine
(`src/hooks/use-flasher.ts`) against its natural-language specification.

The hook's React state (`FlasherState`), the ref cells (`portRef`,
`readerRef`) and the operations `addLog`, `disconnect`, `flashFirmware`
and `clearLogs` are embedded as pure Lean functions.  Asynchrony plays no
role in the claims (all awaits are sequential in one call), so each
operation is modelled as a state transformer.  Transport writes are
modelled by an oracle `wfail : Nat -> Option String` giving, for the k-th
write attempt of a `flashFirmware` call, the error message the underlying
`writer.write` rejects with (`none` = the write succeeds).  `new Date()`
timestamps are modelled by a monotone counter `clock` threaded through the
engine.  JavaScript `Math.round((current / total) * 100)` on the integer
inputs occurring here is modelled exactly as half-up rational rounding.
-/

/-- The `type` field of a `LogEntry`: `'info' | 'success' | 'error' | 'warning'`. -/
inductive LogType where
  | info
  | success
  | error
  | warning
deriving DecidableEq, Repr

/-- `LogEntry` from `use-flasher.ts` (timestamp modelled as a Nat clock value). -/
structure LogEntry where
  message : String
  type : LogType
  timestamp : Nat
deriving DecidableEq, Repr

/-- `FlashProgress` from `use-flasher.ts`. -/
structure FlashProgress where
  current : Nat
  total : Nat
  percentage : Nat
deriving DecidableEq, Repr

/-- `FlasherState` from `use-flasher.ts` (the React state object). -/
structure FlasherState where
  isConnected : Bool
  isFlashing : Bool
  progress : FlashProgress
  logs : List LogEntry
  error : Option String
deriving DecidableEq, Repr

/-- The `SerialPort` held in `portRef`: we track only whether its
`readable` and `writable` stream halves are available (they become
unavailable when the port is closed). -/
structure SerialPortM where
  readable : Bool
  writable : Bool
deriving DecidableEq, Repr

/-- The full engine: React state plus the two refs (`portRef.current`,
`readerRef.current`, the latter abstracted to presence) and the model clock. -/
structure Engine where
  state : FlasherState
  port : Option SerialPortM
  reader : Bool
  clock : Nat
deriving DecidableEq, Repr

/-- The initial `useState` value of the hook. -/
def initialEngine : Engine :=
  { state := { isConnected := false, isFlashing := false,
               progress := { current := 0, total := 0, percentage := 0 },
               logs := [], error := none },
    port := none, reader := false, clock := 0 }

/-- `arr.slice(-n)` on a JavaScript array: the last `n` elements
(the whole list when it is shorter than `n`). -/
def takeLast {α : Type} (n : Nat) (l : List α) : List α :=
  l.drop (l.length - n)

/-- The body of `addLog`: append the entry, then `.slice(-100)`
("Keep last 100 logs"). -/
def addLogCore (logs : List LogEntry) (message : String) (ty : LogType)
    (now : Nat) : List LogEntry :=
  takeLast 100 (logs ++ [{ message := message, type := ty, timestamp := now }])

/-- The default value of `addLog`'s `type` parameter in the source:
`type: LogEntry['type'] = 'info'`. -/
def defaultLogType : LogType := LogType.info

/-- A call of `addLog` that omits the `type` argument: JavaScript applies
the declared default. -/
def addLogDefault (logs : List LogEntry) (message : String) (now : Nat) :
    List LogEntry :=
  addLogCore logs message defaultLogType now

/-- `addLog` lifted to the engine: uses and advances the model clock. -/
def engineAddLog (e : Engine) (message : String) (ty : LogType) : Engine :=
  { e with
    state := { e.state with logs := addLogCore e.state.logs message ty e.clock },
    clock := e.clock + 1 }

/-- `clearLogs` from `use-flasher.ts`: `setState` spreading the previous
state and replacing `logs` with `[]`. -/
def clearLogs (s : FlasherState) : FlasherState :=
  { s with logs := [] }

/-- `disconnect` from `use-flasher.ts`: release the reader ref, close the
port when it is present and its readable half is available (closing makes
both stream halves unavailable; the port ref itself is NOT cleared), set
`isConnected := false`, and log. -/
def disconnect (e : Engine) : Engine :=
  let e1 : Engine := { e with reader := false }
  let e2 : Engine :=
    match e1.port with
    | some p =>
        if p.readable then { e1 with port := some { readable := false, writable := false } }
        else e1
    | none => e1
  let e3 : Engine := { e2 with state := { e2.state with isConnected := false } }
  engineAddLog e3 "Disconnected from device" LogType.info

/-- `ROM_LOADER_FLASH_BEGIN_CMD` (0x02). -/
def ROM_LOADER_FLASH_BEGIN_CMD : Nat := 0x02
/-- `ROM_LOADER_FLASH_DATA_CMD` (0x03). -/
def ROM_LOADER_FLASH_DATA_CMD : Nat := 0x03
/-- `ROM_LOADER_FLASH_END_CMD` (0x04). -/
def ROM_LOADER_FLASH_END_CMD : Nat := 0x04

/-- The 16-byte `flashBegin` frame built inline in `flashFirmware`:
command byte, seven zero bytes, `fileData.length` little-endian (4 bytes),
`offset` little-endian (4 bytes).  `(x >> 8*k) & 0xff` on a JavaScript
number below 2^32 equals `x / 2^(8*k) % 256`. -/
def encodeFlashBegin (imageLen offset : Nat) : List Nat :=
  [ROM_LOADER_FLASH_BEGIN_CMD,
   0x00, 0x00, 0x00, 0x00, 0x00, 0x00, 0x00,
   imageLen % 256, imageLen / 256 % 256, imageLen / 65536 % 256, imageLen / 16777216 % 256,
   offset % 256, offset / 256 % 256, offset / 65536 % 256, offset / 16777216 % 256]

/-- The `chunkData` frame built inline in the chunk loop: command byte,
chunk length little-endian (2 bytes), one zero byte, the raw chunk. -/
def encodeFlashData (chunk : List Nat) : List Nat :=
  ROM_LOADER_FLASH_DATA_CMD :: chunk.length % 256 :: chunk.length / 256 % 256 :: 0x00 :: chunk

/-- The `flashEnd` frame: command byte and one zero byte. -/
def encodeFlashEnd : List Nat := [ROM_LOADER_FLASH_END_CMD, 0x00]

/-- Decoder for a BEGIN frame, following the spec's wire-format
description (the repository sends frames and has no decoder): read the
command byte, the little-endian image length at bytes 8..11 and the
little-endian offset at bytes 12..15. -/
def decodeFlashBegin (frame : List Nat) : Option (Nat × Nat) :=
  match frame with
  | [c, _, _, _, _, _, _, _, l0, l1, l2, l3, o0, o1, o2, o3] =>
      if c = ROM_LOADER_FLASH_BEGIN_CMD then
        some (l0 + 256 * l1 + 65536 * l2 + 16777216 * l3,
              o0 + 256 * o1 + 65536 * o2 + 16777216 * o3)
      else none
  | _ => none

/-- Decoder for a DATA frame, following the spec's wire-format
description: command byte, 2-byte little-endian length, one reserved
byte, then the chunk bytes. -/
def decodeFlashData (frame : List Nat) : Option (Nat × List Nat) :=
  match frame with
  | c :: l0 :: l1 :: _ :: rest =>
      if c = ROM_LOADER_FLASH_DATA_CMD then some (l0 + 256 * l1, rest) else none
  | _ => none

/-- Exact model of `Math.round((c / t) * 100)` for natural `c`, `t`:
half-up rounding of the rational `100 * c / t`.  (For the values occurring
in this program the double-precision computation agrees with the exact
rational one.) -/
def jsRound100 (c t : Nat) : Nat := (200 * c + t) / (2 * t)

/-- `offset.toString(16)` for a natural offset (lowercase hex digits). -/
def natToHex (n : Nat) : String := (Nat.toDigits 16 n).asString

/-- The chunks the loop `for (let i = 0; i < fileData.length; i += 256)`
slices out, starting at loop index `i`: each is
`fileData.slice(i, Math.min(i + 256, fileData.length))`.  The loop is
bounded, so it is phrased with a structural fuel argument; any
`fuel` with `fileData.length - i ≤ 256 * fuel` is beyond the number of
remaining iterations and gives the exact loop behaviour. -/
def chunksFrom (fileData : List Nat) : Nat → Nat → List (List Nat)
  | 0, _ => []
  | fuel + 1, i =>
      if i < fileData.length then
        (fileData.drop i).take 256 :: chunksFrom fileData fuel (i + 256)
      else []

/-- All chunks of an image. -/
def chunksOf (fileData : List Nat) : List (List Nat) :=
  chunksFrom fileData fileData.length 0

/-- The progress values the loop stores via `setState` after each chunk,
starting at loop index `i` (same fuel convention as `chunksFrom`): after
the chunk at `i` the new `current` is `Math.min(i + 256, fileData.length)`. -/
def progressFrom (fileData : List Nat) : Nat → Nat → List FlashProgress
  | 0, _ => []
  | fuel + 1, i =>
      if i < fileData.length then
        { current := min (i + 256) fileData.length,
          total := fileData.length,
          percentage := jsRound100 (min (i + 256) fileData.length) fileData.length }
          :: progressFrom fileData fuel (i + 256)
      else []

/-- The per-chunk progress values of a whole `flashFirmware` job. -/
def progressOf (fileData : List Nat) : List FlashProgress :=
  progressFrom fileData fileData.length 0

/-- Mutable context of one `flashFirmware` call: the engine, the list of
transport writes performed so far, the index of the next write attempt
(consumed by the failure oracle), and the trace of per-chunk progress
values passed to `setState` (one per loop iteration). -/
structure FlashCtx where
  e : Engine
  writes : List (List Nat)
  wIdx : Nat
  chunkProgress : List FlashProgress
deriving DecidableEq, Repr

/-- The `write` helper of the hook applied inside `flashFirmware`: it
throws `Port not writable` when the port's writable half is unavailable;
otherwise `writer.write(data)` runs and either rejects with the oracle's
message or delivers the bytes. -/
def ctxWrite (wfail : Nat → Option String) (port : SerialPortM)
    (c : FlashCtx) (data : List Nat) : Except (String × FlashCtx) FlashCtx :=
  if port.writable then
    match wfail c.wIdx with
    | some msg => Except.error (msg, c)
    | none => Except.ok { c with writes := c.writes ++ [data], wIdx := c.wIdx + 1 }
  else Except.error ("Port not writable", c)

/-- `addLog` inside a `flashFirmware` call. -/
def ctxAddLog (c : FlashCtx) (message : String) (ty : LogType) : FlashCtx :=
  { c with e := engineAddLog c.e message ty }

/-- The chunk loop of `flashFirmware`:
`for (let i = 0; i < fileData.length; i += chunkSize)` with
`chunkSize = 256`; per iteration: build and write the DATA frame, update
progress, log the cumulative byte count.  (The fixed 50-unit inter-chunk
delay has no observable effect in this model.)  Same structural fuel
convention as `chunksFrom`; `flashFirmware` supplies `fileData.length`,
which always covers every iteration. -/
def flashLoop (wfail : Nat → Option String) (port : SerialPortM)
    (fileData : List Nat) :
    Nat → Nat → FlashCtx → Except (String × FlashCtx) FlashCtx
  | 0, _, c => Except.ok c
  | fuel + 1, i, c =>
      if i < fileData.length then
        let chunk := (fileData.drop i).take 256
        match ctxWrite wfail port c (encodeFlashData chunk) with
        | Except.error err => Except.error err
        | Except.ok c1 =>
            let prog := min (i + 256) fileData.length
            let pr : FlashProgress :=
              { current := prog, total := fileData.length,
                percentage := jsRound100 prog fileData.length }
            let c2 : FlashCtx :=
              { c1 with
                e := { c1.e with state := { c1.e.state with progress := pr } },
                chunkProgress := c1.chunkProgress ++ [pr] }
            let c3 := ctxAddLog c2
              ("Flashed " ++ toString prog ++ "/" ++ toString fileData.length ++ " bytes")
              LogType.info
            flashLoop wfail port fileData fuel (i + 256) c3
      else Except.ok c

/-- Result of a `flashFirmware` call: the final engine, the transport
writes that were delivered (in order), the outcome (`none` = resolved;
`some msg` = rejected with that message), and the per-chunk progress
trace. -/
structure FlashResult where
  engine : Engine
  writes : List (List Nat)
  outcome : Option String
  chunkProgress : List FlashProgress
deriving DecidableEq, Repr

/-- `flashFirmware(fileData, offset = 0x10000)` from `use-flasher.ts`.
Guard: `if (!portRef.current) throw new Error('Not connected to device')`
— before any state update, so a guard failure leaves the engine
untouched.  Then: set `isFlashing`, clear `error`, reset progress; log
start, size and offset; write the BEGIN frame; run the chunk loop; write
the END frame; on success force progress to 100% and log success; on any
thrown error set `isFlashing := false`, store the message in `error`, log
one error entry, and re-throw. -/
def flashFirmware (wfail : Nat → Option String) (e : Engine)
    (fileData : List Nat) (offset : Nat) : FlashResult :=
  match e.port with
  | none => { engine := e, writes := [], outcome := some "Not connected to device",
              chunkProgress := [] }
  | some port =>
      let e1 : Engine :=
        { e with state :=
          { e.state with
            isFlashing := true
            error := none
            progress := { current := 0, total := fileData.length, percentage := 0 } } }
      let c0 : FlashCtx := { e := e1, writes := [], wIdx := 0, chunkProgress := [] }
      let c1 := ctxAddLog c0 "Starting firmware flash..." LogType.info
      let c2 := ctxAddLog c1 ("File size: " ++ toString fileData.length ++ " bytes") LogType.info
      let c3 := ctxAddLog c2 ("Flash offset: 0x" ++ natToHex offset) LogType.info
      let attempt : Except (String × FlashCtx) FlashCtx :=
        match ctxWrite wfail port c3 (encodeFlashBegin fileData.length offset) with
        | Except.error err => Except.error err
        | Except.ok c4 =>
            match flashLoop wfail port fileData fileData.length 0 c4 with
            | Except.error err => Except.error err
            | Except.ok c5 => ctxWrite wfail port c5 encodeFlashEnd
      match attempt with
      | Except.ok c =>
          let eo : Engine :=
            { c.e with state :=
              { c.e.state with
                isFlashing := false
                progress := { current := fileData.length, total := fileData.length,
                              percentage := 100 } } }
          let eo2 := engineAddLog eo "Firmware flash completed successfully!" LogType.success
          { engine := eo2, writes := c.writes, outcome := none,
            chunkProgress := c.chunkProgress }
      | Except.error (msg, c) =>
          let eo : Engine :=
            { c.e with state :=
              { c.e.state with
                isFlashing := false
                error := some msg } }
          let eo2 := engineAddLog eo ("Flash error: " ++ msg) LogType.error
          { engine := eo2, writes := c.writes, outcome := some msg,
            chunkProgress := c.chunkProgress }

/-- The all-writes-succeed oracle. -/
def wfailNone : Nat → Option String := fun _ => none

/-- The oracle under which exactly the write attempt with index `j`
(0-based: 0 is the BEGIN frame, `1..` the DATA frames, last the END
frame) rejects with message `msg`. -/
def failAt (j : Nat) (msg : String) : Nat → Option String :=
  fun k => if k = j then some msg else none

/-- One `addLog` step, packaged for folding over a sequence of append
operations. -/
def logStep (l : List LogEntry) (op : String × LogType × Nat) : List LogEntry :=
  addLogCore l op.1 op.2.1 op.2.2

/-- Run a sequence of append operations against the initially empty log. -/
def runLogOps (ops : List (String × LogType × Nat)) : List LogEntry :=
  ops.foldl logStep []

/-- A concrete engine as it stands right after a successful `connect`:
flag set, port open with both stream halves available. -/
def eConn : Engine :=
  { state := { isConnected := true, isFlashing := false,
               progress := { current := 0, total := 0, percentage := 0 },
               logs := [], error := none },
    port := some { readable := true, writable := true }, reader := false, clock := 0 }

/-- A concrete engine in the middle of a flash: `isFlashing` is true and
the port is open. -/
def eFlashing : Engine :=
  { eConn with state := { eConn.state with isFlashing := true } }

/- ### Helper lemmas -/

theorem takeLast_of_le {α : Type} {n : Nat} {l : List α} (h : l.length ≤ n) :
    takeLast n l = l := by
  unfold takeLast
  have : l.length - n = 0 := by omega
  rw [this, List.drop_zero]

theorem takeLast_length_le {α : Type} (n : Nat) (l : List α) :
    (takeLast n l).length ≤ n := by
  unfold takeLast
  rw [List.length_drop]
  omega

theorem addLogCore_length_le (logs : List LogEntry) (m : String) (ty : LogType)
    (now : Nat) : (addLogCore logs m ty now).length ≤ 100 :=
  takeLast_length_le 100 _

theorem mem_addLogCore {en : LogEntry} {logs : List LogEntry} {m : String}
    {ty : LogType} {now : Nat} (h : en ∈ addLogCore logs m ty now) :
    en ∈ logs ∨ en = { message := m, type := ty, timestamp := now } := by
  unfold addLogCore takeLast at h
  have h2 := List.mem_of_mem_drop h
  rcases List.mem_append.1 h2 with h3 | h3
  · exact Or.inl h3
  · simp at h3
    exact Or.inr h3

theorem addLogCore_getLast (logs : List LogEntry) (m : String) (ty : LogType)
    (now : Nat) :
    (addLogCore logs m ty now).getLast? =
      some { message := m, type := ty, timestamp := now } := by
  unfold addLogCore takeLast
  rw [List.drop_append_of_le_length (by simp), List.getLast?_concat]

theorem foldl_logStep_length_le (ops : List (String × LogType × Nat)) :
    ∀ l : List LogEntry, l.length ≤ 100 → (ops.foldl logStep l).length ≤ 100 := by
  induction ops with
  | nil => intro l h; simpa using h
  | cons op rest ih =>
      intro l h
      rw [List.foldl_cons]
      exact ih _ (addLogCore_length_le _ _ _ _)

theorem countP_error_addLogCore (L : List LogEntry) (m : String) (now : Nat)
    (hL : ∀ en ∈ L, en.type = LogType.info) :
    (addLogCore L m LogType.error now).countP
      (fun en => decide (en.type = LogType.error)) = 1 := by
  unfold addLogCore takeLast
  rw [List.drop_append_of_le_length (by simp), List.countP_append]
  have hz : ∀ k : Nat, ((L.drop k).countP (fun en => decide (en.type = LogType.error))) = 0 := by
    intro k
    rw [List.countP_eq_zero]
    intro en hen
    have := hL en (List.mem_of_mem_drop hen)
    simp [this]
  rw [hz]
  simp

theorem mem_addLogCore_info {logs : List LogEntry} {m : String} {now : Nat}
    (hall : ∀ en ∈ logs, en.type = LogType.info) :
    ∀ en ∈ addLogCore logs m LogType.info now, en.type = LogType.info := by
  intro en hmem
  rcases mem_addLogCore hmem with h | h
  · exact hall en h
  · rw [h]

/-- Success-path characterisation of the chunk loop: with an always-open
port and no write failures the loop returns normally, appends one DATA
frame per chunk to the write list, records exactly the `progressFrom`
trace, advances the write index by the chunk count, leaves the flashing
flag, the error field and the port untouched, and appends only
info-category log entries. -/
theorem flashLoop_none_spec (port : SerialPortM) (hw : port.writable = true)
    (fileData : List Nat) :
    ∀ (fuel i : Nat) (c : FlashCtx),
      ∃ c', flashLoop wfailNone port fileData fuel i c = Except.ok c' ∧
        c'.writes = c.writes ++ (chunksFrom fileData fuel i).map encodeFlashData ∧
        c'.chunkProgress = c.chunkProgress ++ progressFrom fileData fuel i ∧
        c'.wIdx = c.wIdx + (chunksFrom fileData fuel i).length ∧
        c'.e.state.isFlashing = c.e.state.isFlashing ∧
        c'.e.state.error = c.e.state.error ∧
        c'.e.state.isConnected = c.e.state.isConnected ∧
        c'.e.port = c.e.port ∧
        (∀ en ∈ c'.e.state.logs, en ∈ c.e.state.logs ∨ en.type = LogType.info) := by
  intro fuel
  induction fuel with
  | zero =>
      intro i c
      exact ⟨c, rfl, by simp [chunksFrom], by simp [progressFrom], by simp [chunksFrom],
        rfl, rfl, rfl, rfl, fun en h => Or.inl h⟩
  | succ fuel ih =>
      intro i c
      by_cases h : i < fileData.length
      · set pr : FlashProgress :=
          { current := min (i + 256) fileData.length,
            total := fileData.length,
            percentage := jsRound100 (min (i + 256) fileData.length) fileData.length }
          with hpr
        set c3 : FlashCtx :=
          { e := { c.e with
              state := { c.e.state with
                progress := pr
                logs := addLogCore c.e.state.logs
                  ("Flashed " ++ toString (min (i + 256) fileData.length) ++ "/" ++
                    toString fileData.length ++ " bytes") LogType.info c.e.clock }
              clock := c.e.clock + 1 },
            writes := c.writes ++ [encodeFlashData ((fileData.drop i).take 256)],
            wIdx := c.wIdx + 1,
            chunkProgress := c.chunkProgress ++ [pr] } with hc3
        have hstep : flashLoop wfailNone port fileData (fuel + 1) i c =
            flashLoop wfailNone port fileData fuel (i + 256) c3 := by
          simp [flashLoop, h, ctxWrite, hw, wfailNone, ctxAddLog, engineAddLog, hc3]
        obtain ⟨c', hrun, hwr', hpg', hix', hfl', her', hcn', hport', hlg'⟩ :=
          ih (i + 256) c3
        refine ⟨c', by rw [hstep]; exact hrun, ?_, ?_, ?_, ?_, ?_, ?_, ?_, ?_⟩
        · rw [hwr']
          simp [chunksFrom, h, hc3]
        · rw [hpg']
          simp [progressFrom, h, hc3, hpr]
        · rw [hix']
          simp [chunksFrom, h, hc3]
          omega
        · simpa [hc3] using hfl'
        · simpa [hc3] using her'
        · simpa [hc3] using hcn'
        · simpa [hc3] using hport'
        · intro en hen
          rcases hlg' en hen with h2 | h2
          · rw [hc3] at h2
            simp only at h2
            rcases mem_addLogCore h2 with h3 | h3
            · exact Or.inl h3
            · rw [h3]
              exact Or.inr rfl
          · exact Or.inr h2
      · refine ⟨c, ?_, ?_, ?_, ?_, rfl, rfl, rfl, rfl, fun en h2 => Or.inl h2⟩
        · simp [flashLoop, h]
        · simp [chunksFrom, h]
        · simp [progressFrom, h]
        · simp [chunksFrom, h]

/-- Success-path characterisation of a whole `flashFirmware` call with a
writable port and no write failures: it resolves, sends exactly
BEGIN, the DATA frames of the chunks in order, then END, records the
`progressOf` trace, ends with `isFlashing = false`, a cleared error and
progress forced to `{total, total, 100}`. -/
theorem flashFirmware_none_spec (e : Engine) (p : SerialPortM) (img : List Nat)
    (off : Nat) (h : e.port = some p) (hw : p.writable = true) :
    (flashFirmware wfailNone e img off).outcome = none ∧
    (flashFirmware wfailNone e img off).writes =
      encodeFlashBegin img.length off ::
        ((chunksOf img).map encodeFlashData ++ [encodeFlashEnd]) ∧
    (flashFirmware wfailNone e img off).chunkProgress = progressOf img ∧
    (flashFirmware wfailNone e img off).engine.state.isFlashing = false ∧
    (flashFirmware wfailNone e img off).engine.state.progress =
      { current := img.length, total := img.length, percentage := 100 } ∧
    (flashFirmware wfailNone e img off).engine.state.error = none := by
  obtain ⟨c', hrun, hwr, hpg, hix, hfl, her, hcn, hport, hlg⟩ :=
    flashLoop_none_spec p hw img img.length 0
      { e :=
          { state :=
              { isConnected := e.state.isConnected
                isFlashing := true
                progress := { current := 0, total := img.length, percentage := 0 }
                logs := addLogCore (addLogCore (addLogCore e.state.logs
                  "Starting firmware flash..." LogType.info e.clock)
                  ("File size: " ++ toString img.length ++ " bytes") LogType.info (e.clock + 1))
                  ("Flash offset: 0x" ++ natToHex off) LogType.info (e.clock + 1 + 1)
                error := none }
            port := some p
            reader := e.reader
            clock := e.clock + 1 + 1 + 1 }
        writes := [encodeFlashBegin img.length off]
        wIdx := 1
        chunkProgress := [] }
  simp only [chunksOf, progressOf]
  simp [flashFirmware, h, ctxWrite, hw, wfailNone, ctxAddLog, engineAddLog,
    hrun, hwr, hpg, her, List.append_assoc]

/-- Failure-path characterisation of the chunk loop: under the oracle
that rejects exactly write attempt `j`, if `j` falls on one of the DATA
frames the loop aborts with the oracle's message, having delivered
exactly the DATA frames before the failing one, leaving the flashing
flag and the error field untouched and appending only info-category log
entries. -/
theorem flashLoop_failAt_spec (port : SerialPortM) (hw : port.writable = true)
    (j : Nat) (msg : String) (fileData : List Nat) :
    ∀ fuel i (c : FlashCtx), c.wIdx ≤ j →
      j - c.wIdx < (chunksFrom fileData fuel i).length →
      ∃ c', flashLoop (failAt j msg) port fileData fuel i c =
          Except.error (msg, c') ∧
        c'.writes = c.writes ++
          ((chunksFrom fileData fuel i).take (j - c.wIdx)).map encodeFlashData ∧
        c'.e.state.isFlashing = c.e.state.isFlashing ∧
        c'.e.state.error = c.e.state.error ∧
        (∀ en ∈ c'.e.state.logs, en ∈ c.e.state.logs ∨ en.type = LogType.info) := by
  intro fuel
  induction fuel with
  | zero =>
      intro i c h1 h2
      simp [chunksFrom] at h2
  | succ fuel ih =>
      intro i c h1 h2
      by_cases h : i < fileData.length
      · by_cases hj : c.wIdx = j
        · refine ⟨c, ?_, ?_, rfl, rfl, fun en h3 => Or.inl h3⟩
          · simp [flashLoop, h, ctxWrite, hw, failAt, hj]
          · simp [hj]
        · rw [chunksFrom, if_pos h] at h2
          set pr : FlashProgress :=
            { current := min (i + 256) fileData.length,
              total := fileData.length,
              percentage := jsRound100 (min (i + 256) fileData.length) fileData.length }
            with hpr
          set c3 : FlashCtx :=
            { e := { c.e with
                state := { c.e.state with
                  progress := pr
                  logs := addLogCore c.e.state.logs
                    ("Flashed " ++ toString (min (i + 256) fileData.length) ++ "/" ++
                      toString fileData.length ++ " bytes") LogType.info c.e.clock }
                clock := c.e.clock + 1 },
              writes := c.writes ++ [encodeFlashData ((fileData.drop i).take 256)],
              wIdx := c.wIdx + 1,
              chunkProgress := c.chunkProgress ++ [pr] } with hc3
          have hstep : flashLoop (failAt j msg) port fileData (fuel + 1) i c =
              flashLoop (failAt j msg) port fileData fuel (i + 256) c3 := by
            simp [flashLoop, h, ctxWrite, hw, failAt, hj, ctxAddLog, engineAddLog, hc3]
          have hlen : j - c.wIdx <
              (chunksFrom fileData fuel (i + 256)).length + 1 := by
            simpa using h2
          have hx1 : c3.wIdx ≤ j := by
            simp [hc3]
            omega
          have hx2 : j - c3.wIdx < (chunksFrom fileData fuel (i + 256)).length := by
            simp [hc3]
            omega
          obtain ⟨c', hrun, hwr, hfl, her, hlg⟩ := ih (i + 256) c3 hx1 hx2
          refine ⟨c', by rw [hstep]; exact hrun, ?_, ?_, ?_, ?_⟩
          · rw [hwr]
            conv_rhs => rw [chunksFrom, if_pos h]
            have htake : j - c.wIdx = (j - (c.wIdx + 1)) + 1 := by omega
            rw [htake, List.take_succ_cons]
            simp [hc3, List.append_assoc]
          · simpa [hc3] using hfl
          · simpa [hc3] using her
          · intro en hen
            rcases hlg en hen with h3 | h3
            · rw [hc3] at h3
              simp only at h3
              rcases mem_addLogCore h3 with h4 | h4
              · exact Or.inl h4
              · rw [h4]
                exact Or.inr rfl
            · exact Or.inr h3
      · rw [chunksFrom, if_neg h] at h2
        simp at h2

theorem progressFrom_mem (l : List Nat) :
    ∀ fuel i, ∀ pr ∈ progressFrom l fuel i,
      pr.total = l.length ∧ pr.current ≤ l.length ∧
      pr.percentage = jsRound100 pr.current l.length := by
  intro fuel
  induction fuel with
  | zero => intro i pr hpr; simp [progressFrom] at hpr
  | succ fuel ih =>
      intro i pr hpr
      rw [progressFrom] at hpr
      by_cases h : i < l.length
      · rw [if_pos h] at hpr
        rcases List.mem_cons.1 hpr with h2 | h2
        · subst h2
          exact ⟨rfl, Nat.min_le_right _ _, rfl⟩
        · exact ih (i + 256) pr h2
      · rw [if_neg h] at hpr
        simp at hpr

theorem progressFrom_chain (l : List Nat) :
    ∀ fuel i, List.Chain'
      (fun a b => b.current = min (a.current + 256) l.length ∧
        a.current ≤ b.current)
      (progressFrom l fuel i) := by
  intro fuel
  induction fuel with
  | zero => intro i; simp [progressFrom]
  | succ fuel ih =>
      intro i
      by_cases h : i < l.length
      · rw [progressFrom, if_pos h]
        apply List.chain'_cons'.2
        refine ⟨?_, ih (i + 256)⟩
        intro y hy
        cases fuel with
        | zero => simp [progressFrom] at hy
        | succ fuel2 =>
            by_cases h2 : i + 256 < l.length
            · rw [progressFrom, if_pos h2] at hy
              simp at hy
              rw [← hy]
              dsimp only
              omega
            · rw [progressFrom, if_neg h2] at hy
              simp at hy
      · rw [progressFrom, if_neg h]
        exact List.chain'_nil

theorem progressOf_head (img : List Nat) (hne : img ≠ []) :
    (progressOf img).head? =
      some { current := min 256 img.length, total := img.length,
             percentage := jsRound100 (min 256 img.length) img.length } := by
  obtain ⟨k, hk⟩ : ∃ k, img.length = k + 1 := by
    cases img with
    | nil => exact absurd rfl hne
    | cons a t => exact ⟨t.length, rfl⟩
  have hpos : 0 < img.length := by omega
  rw [progressOf, hk, progressFrom, if_pos hpos]
  simp [hk]

/- ### Claim theorems -/

/-- C9: `clearLogs` empties the log sequence and leaves the connected
flag, the flashing flag, the progress record and the error field
unchanged. -/
theorem clearLogs_frame (s : FlasherState) :
    (clearLogs s).logs = [] ∧
    (clearLogs s).isConnected = s.isConnected ∧
    (clearLogs s).isFlashing = s.isFlashing ∧
    (clearLogs s).progress = s.progress ∧
    (clearLogs s).error = s.error :=
  ⟨rfl, rfl, rfl, rfl, rfl⟩

/-- C10: a call of `addLog` that omits the category argument appends an
entry whose category is `info` (the declared default). -/
theorem addLog_default_category (logs : List LogEntry) (m : String) (now : Nat) :
    addLogDefault logs m now = addLogCore logs m LogType.info now ∧
    (addLogDefault logs m now).getLast? =
      some { message := m, type := LogType.info, timestamp := now } :=
  ⟨rfl, addLogCore_getLast logs m LogType.info now⟩

/-- C6: over any sequence of append operations the log stays at length at
most 100, and appending to a full log of 100 entries drops exactly the
oldest entry, keeping the remaining 100 in order (the result is the tail
of the old log followed by the new entry). -/
theorem log_bounded_drop_oldest (ops : List (String × LogType × Nat))
    (logs : List LogEntry) (m : String) (ty : LogType) (now : Nat)
    (h : logs.length = 100) :
    (runLogOps ops).length ≤ 100 ∧
    addLogCore logs m ty now = logs.tail ++ [{ message := m, type := ty, timestamp := now }] := by
  constructor
  · exact foldl_logStep_length_le ops [] (by simp)
  · unfold addLogCore takeLast
    rw [List.drop_append_of_le_length (by simp)]
    have hk : (logs ++ [({ message := m, type := ty, timestamp := now } : LogEntry)]).length - 100 = 1 := by
      rw [List.length_append, h]
      simp
    rw [hk, List.drop_one]

/-- C7: for every `imageLen` and `offset` fitting in 32 bits, the BEGIN
frame is 16 bytes, starts with the command byte 0x02 followed by seven
zero padding bytes, carries `imageLen` little-endian in bytes 8..11 and
`offset` little-endian in bytes 12..15 (each a byte below 256). -/
theorem flashBegin_layout (len off : Nat) (h1 : len < 4294967296)
    (h2 : off < 4294967296) :
    (encodeFlashBegin len off).length = 16 ∧
    (encodeFlashBegin len off).getD 0 0 = 0x02 ∧
    ((encodeFlashBegin len off).drop 1).take 7 = List.replicate 7 0 ∧
    (encodeFlashBegin len off).getD 8 0 < 256 ∧
    (encodeFlashBegin len off).getD 9 0 < 256 ∧
    (encodeFlashBegin len off).getD 10 0 < 256 ∧
    (encodeFlashBegin len off).getD 11 0 < 256 ∧
    (encodeFlashBegin len off).getD 8 0 + 256 * (encodeFlashBegin len off).getD 9 0 +
      65536 * (encodeFlashBegin len off).getD 10 0 +
      16777216 * (encodeFlashBegin len off).getD 11 0 = len ∧
    (encodeFlashBegin len off).getD 12 0 < 256 ∧
    (encodeFlashBegin len off).getD 13 0 < 256 ∧
    (encodeFlashBegin len off).getD 14 0 < 256 ∧
    (encodeFlashBegin len off).getD 15 0 < 256 ∧
    (encodeFlashBegin len off).getD 12 0 + 256 * (encodeFlashBegin len off).getD 13 0 +
      65536 * (encodeFlashBegin len off).getD 14 0 +
      16777216 * (encodeFlashBegin len off).getD 15 0 = off := by
  simp [encodeFlashBegin, ROM_LOADER_FLASH_BEGIN_CMD]
  omega

/-- C7 witness at `imageLen = 123456`, `offset = 0x10000`. -/
theorem flashBegin_layout_witness :
    (encodeFlashBegin 123456 65536).length = 16 ∧
    (encodeFlashBegin 123456 65536).getD 0 0 = 0x02 ∧
    ((encodeFlashBegin 123456 65536).drop 1).take 7 = List.replicate 7 0 ∧
    (encodeFlashBegin 123456 65536).getD 8 0 < 256 ∧
    (encodeFlashBegin 123456 65536).getD 9 0 < 256 ∧
    (encodeFlashBegin 123456 65536).getD 10 0 < 256 ∧
    (encodeFlashBegin 123456 65536).getD 11 0 < 256 ∧
    (encodeFlashBegin 123456 65536).getD 8 0 + 256 * (encodeFlashBegin 123456 65536).getD 9 0 +
      65536 * (encodeFlashBegin 123456 65536).getD 10 0 +
      16777216 * (encodeFlashBegin 123456 65536).getD 11 0 = 123456 ∧
    (encodeFlashBegin 123456 65536).getD 12 0 < 256 ∧
    (encodeFlashBegin 123456 65536).getD 13 0 < 256 ∧
    (encodeFlashBegin 123456 65536).getD 14 0 < 256 ∧
    (encodeFlashBegin 123456 65536).getD 15 0 < 256 ∧
    (encodeFlashBegin 123456 65536).getD 12 0 + 256 * (encodeFlashBegin 123456 65536).getD 13 0 +
      65536 * (encodeFlashBegin 123456 65536).getD 14 0 +
      16777216 * (encodeFlashBegin 123456 65536).getD 15 0 = 65536 :=
  flashBegin_layout 123456 65536 (by decide) (by decide)

/-- C8: decoding an emitted BEGIN frame recovers the original image
length and offset, and decoding an emitted DATA frame recovers the
original chunk length and chunk bytes. -/
theorem frame_roundtrip (len off : Nat) (chunk : List Nat)
    (h1 : len < 4294967296) (h2 : off < 4294967296) (h3 : chunk.length ≤ 256) :
    decodeFlashBegin (encodeFlashBegin len off) = some (len, off) ∧
    decodeFlashData (encodeFlashData chunk) = some (chunk.length, chunk) := by
  constructor
  · simp [encodeFlashBegin, decodeFlashBegin, ROM_LOADER_FLASH_BEGIN_CMD]
    omega
  · simp [encodeFlashData, decodeFlashData, ROM_LOADER_FLASH_DATA_CMD]
    omega

/-- C8 witness at a concrete frame pair. -/
theorem frame_roundtrip_witness :
    decodeFlashBegin (encodeFlashBegin 300 65536) = some (300, 65536) ∧
    decodeFlashData (encodeFlashData [5, 6, 7]) = some (3, [5, 6, 7]) := by
  have h := frame_roundtrip 300 65536 [5, 6, 7] (by decide) (by decide) (by decide)
  simpa using h

/-- C1 counterexample: after a `disconnect`, `connected` is false but the
port ref is retained, so `flashFirmware` does not fail with the
NotConnected error: it proceeds past the guard, mutates the engine state
(stores a different error) and fails with `Port not writable`. -/
theorem flash_disconnected_counterexample :
    (disconnect eConn).state.isConnected = false ∧
    (flashFirmware wfailNone (disconnect eConn) [] 0x10000).outcome =
      some "Port not writable" ∧
    (some "Port not writable" : Option String) ≠ some "Not connected to device" ∧
    (flashFirmware wfailNone (disconnect eConn) [] 0x10000).engine.state.error ≠
      (disconnect eConn).state.error := by
  decide

/-- C1 amended: `flashFirmware` fails with the NotConnected error,
performs no transport writes and leaves the engine untouched exactly when
no port handle is present (`portRef.current == null`), i.e. when the
engine never connected; `connected == false` alone does not trigger the
guard. -/
theorem flash_no_port_guard (wfail : Nat → Option String) (e : Engine)
    (img : List Nat) (off : Nat) (h : e.port = none) :
    (flashFirmware wfail e img off).outcome = some "Not connected to device" ∧
    (flashFirmware wfail e img off).writes = [] ∧
    (flashFirmware wfail e img off).engine = e := by
  simp [flashFirmware, h]

/-- C1 witness: the guard at the never-connected initial engine. -/
theorem flash_no_port_guard_witness :
    (flashFirmware wfailNone initialEngine [1, 2] 0x10000).outcome =
      some "Not connected to device" ∧
    (flashFirmware wfailNone initialEngine [1, 2] 0x10000).writes = [] ∧
    (flashFirmware wfailNone initialEngine [1, 2] 0x10000).engine = initialEngine :=
  flash_no_port_guard wfailNone initialEngine [1, 2] 0x10000 rfl

/-- C2 counterexample: a `flashFirmware` call on an engine whose
`isFlashing` flag is already true is not rejected: it runs to completion
and performs the full write sequence, so there is no flashing-state
precondition check. -/
theorem flash_reentrant_counterexample :
    eFlashing.state.isFlashing = true ∧
    (flashFirmware wfailNone eFlashing [7] 0x10000).outcome = none ∧
    (flashFirmware wfailNone eFlashing [7] 0x10000).writes =
      [encodeFlashBegin 1 0x10000, encodeFlashData [7], encodeFlashEnd] := by
  decide

/-- C3 counterexample: for the empty image the success path of
`flashFirmware` forces the final percentage to 100, not 0: the
`total == 0 => percentage = 0` convention is not applied at completion. -/
theorem flash_empty_percentage_counterexample :
    (flashFirmware wfailNone eConn [] 0x10000).engine.state.progress.percentage = 100 ∧
    (flashFirmware wfailNone eConn [] 0x10000).engine.state.progress.percentage ≠ 0 := by
  decide

/-- C2 amended: `flashFirmware` has no flashing-state precondition check.
A call on an engine whose `isFlashing` flag is already true is not
rejected: whenever a port handle is present and writable it proceeds and
performs the complete BEGIN / DATA / END write sequence.  Only the
missing-port-handle check can reject a call. -/
theorem flash_no_flashing_precondition (e : Engine) (p : SerialPortM)
    (img : List Nat) (off : Nat) (h : e.port = some p) (hw : p.writable = true)
    (_hflash : e.state.isFlashing = true) :
    (flashFirmware wfailNone e img off).outcome = none ∧
    (flashFirmware wfailNone e img off).writes =
      encodeFlashBegin img.length off ::
        ((chunksOf img).map encodeFlashData ++ [encodeFlashEnd]) :=
  ⟨(flashFirmware_none_spec e p img off h hw).1,
   (flashFirmware_none_spec e p img off h hw).2.1⟩

/-- C2 witness: the concrete already-flashing engine. -/
theorem flash_no_flashing_precondition_witness :
    (flashFirmware wfailNone eFlashing [7] 0x10000).outcome = none ∧
    (flashFirmware wfailNone eFlashing [7] 0x10000).writes =
      encodeFlashBegin 1 0x10000 ::
        ((chunksOf [7]).map encodeFlashData ++ [encodeFlashEnd]) :=
  flash_no_flashing_precondition eFlashing
    { readable := true, writable := true } [7] 0x10000 rfl rfl rfl

/-- C3 amended: for a 0-byte image, a successful `flashFirmware` sends a
BEGIN frame whose length field is zero, sends no DATA frames, still sends
the END frame — but the final progress percentage is 100, not 0: the
success path unconditionally forces `{total, total, 100}` even when
`total == 0`. -/
theorem flash_empty_image (e : Engine) (p : SerialPortM) (off : Nat)
    (h : e.port = some p) (hw : p.writable = true) :
    (flashFirmware wfailNone e [] off).writes =
      [encodeFlashBegin 0 off, encodeFlashEnd] ∧
    (encodeFlashBegin 0 off).take 12 = [0x02, 0, 0, 0, 0, 0, 0, 0, 0, 0, 0, 0] ∧
    (flashFirmware wfailNone e [] off).outcome = none ∧
    (flashFirmware wfailNone e [] off).engine.state.progress =
      { current := 0, total := 0, percentage := 100 } := by
  obtain ⟨h1, h2, h3, h4, h5, h6⟩ := flashFirmware_none_spec e p [] off h hw
  refine ⟨?_, ?_, h1, ?_⟩
  · rw [h2]
    simp [chunksOf, chunksFrom]
  · simp [encodeFlashBegin, ROM_LOADER_FLASH_BEGIN_CMD]
  · exact h5

/-- C3 witness: the empty image at the concrete connected engine. -/
theorem flash_empty_image_witness :
    (flashFirmware wfailNone eConn [] 0x10000).writes =
      [encodeFlashBegin 0 0x10000, encodeFlashEnd] ∧
    (encodeFlashBegin 0 0x10000).take 12 = [0x02, 0, 0, 0, 0, 0, 0, 0, 0, 0, 0, 0] ∧
    (flashFirmware wfailNone eConn [] 0x10000).outcome = none ∧
    (flashFirmware wfailNone eConn [] 0x10000).engine.state.progress =
      { current := 0, total := 0, percentage := 100 } :=
  flash_empty_image eConn { readable := true, writable := true } 0x10000 rfl rfl

/-- C5 amended: within one successful `flashFirmware` job the per-chunk
progress trace satisfies `current = min(previous current + 256, total)`,
`current` is non-decreasing and never exceeds `total`, and
`percentage = round(current / total * 100)` (half-up) — but the
percentage can already be exactly 100 while `current < total` (see the
counterexample at `total = 257`), so reaching 100 does not imply
`current == total`. -/
theorem flash_progress_per_chunk (e : Engine) (p : SerialPortM) (img : List Nat)
    (off : Nat) (h : e.port = some p) (hw : p.writable = true) :
    (flashFirmware wfailNone e img off).chunkProgress = progressOf img ∧
    (∀ pr ∈ progressOf img, pr.total = img.length ∧ pr.current ≤ img.length ∧
      pr.percentage = jsRound100 pr.current img.length) ∧
    List.Chain' (fun a b => b.current = min (a.current + 256) img.length ∧
      a.current ≤ b.current) (progressOf img) ∧
    (img ≠ [] → (progressOf img).head? =
      some { current := min 256 img.length, total := img.length,
             percentage := jsRound100 (min 256 img.length) img.length }) :=
  ⟨(flashFirmware_none_spec e p img off h hw).2.2.1,
   progressFrom_mem img img.length 0,
   progressFrom_chain img img.length 0,
   fun hne => progressOf_head img hne⟩

set_option maxRecDepth 4096 in
/-- C5 counterexample: for a 257-byte image the first chunk update
already reports percentage 100 while `current = 256 < 257 = total`, so
percentage reaches 100 before `current == total`. -/
theorem flash_progress_percentage_counterexample :
    (flashFirmware wfailNone eConn (List.replicate 257 0) 0x10000).chunkProgress.head? =
      some { current := 256, total := 257, percentage := 100 } ∧
    (256 : Nat) < 257 := by
  decide

/-- C5 witness: the per-chunk progress properties at a concrete 3-byte
image. -/
theorem flash_progress_per_chunk_witness :
    (flashFirmware wfailNone eConn [1, 2, 3] 0x10000).chunkProgress = progressOf [1, 2, 3] ∧
    (∀ pr ∈ progressOf [1, 2, 3], pr.total = 3 ∧ pr.current ≤ 3 ∧
      pr.percentage = jsRound100 pr.current 3) ∧
    List.Chain' (fun a b => b.current = min (a.current + 256) 3 ∧
      a.current ≤ b.current) (progressOf [1, 2, 3]) ∧
    ([1, 2, 3] ≠ [] → (progressOf [1, 2, 3]).head? =
      some { current := min 256 3, total := 3,
             percentage := jsRound100 (min 256 3) 3 }) :=
  flash_progress_per_chunk eConn { readable := true, writable := true }
    [1, 2, 3] 0x10000 rfl rfl

set_option maxRecDepth 8192 in
/-- C4: if the transport write of the `j`-th frame (a DATA frame,
`1 ≤ j ≤` chunk count; frame 0 is BEGIN) fails, `flashFirmware` aborts
the loop: only the BEGIN frame and the DATA frames before the failing one
were delivered, `isFlashing` ends false, the failure message is stored in
`error`, exactly one error-category log entry is appended (starting from
an empty log, every other entry of the call is info/success-free here),
and the error is re-raised as the outcome. -/
theorem flash_write_failure (e : Engine) (p : SerialPortM) (img : List Nat)
    (off j : Nat) (msg : String)
    (h : e.port = some p) (hw : p.writable = true) (hlogs : e.state.logs = [])
    (hj1 : 1 ≤ j) (hj2 : j ≤ (chunksOf img).length) :
    (flashFirmware (failAt j msg) e img off).outcome = some msg ∧
    (flashFirmware (failAt j msg) e img off).engine.state.isFlashing = false ∧
    (flashFirmware (failAt j msg) e img off).engine.state.error = some msg ∧
    (flashFirmware (failAt j msg) e img off).writes =
      encodeFlashBegin img.length off ::
        ((chunksOf img).take (j - 1)).map encodeFlashData ∧
    (flashFirmware (failAt j msg) e img off).engine.state.logs.countP
      (fun en => decide (en.type = LogType.error)) = 1 := by
  have h0j : ¬ (0 = j) := by omega
  have hj2' : j - 1 < (chunksFrom img img.length 0).length := by
    simp only [chunksOf] at hj2
    omega
  obtain ⟨c', hrun, hwr, hfl, her, hlg⟩ :=
    flashLoop_failAt_spec p hw j msg img img.length 0
      { e :=
          { state :=
              { isConnected := e.state.isConnected
                isFlashing := true
                progress := { current := 0, total := img.length, percentage := 0 }
                logs := addLogCore (addLogCore (addLogCore e.state.logs
                  "Starting firmware flash..." LogType.info e.clock)
                  ("File size: " ++ toString img.length ++ " bytes") LogType.info (e.clock + 1))
                  ("Flash offset: 0x" ++ natToHex off) LogType.info (e.clock + 1 + 1)
                error := none }
            port := some p
            reader := e.reader
            clock := e.clock + 1 + 1 + 1 }
        writes := [encodeFlashBegin img.length off]
        wIdx := 1
        chunkProgress := [] } hj1 hj2'
  have hinfo0 : ∀ en ∈ e.state.logs, en.type = LogType.info := by
    rw [hlogs]
    intro en hen
    simp at hen
  have hall : ∀ en ∈ c'.e.state.logs, en.type = LogType.info := fun en hen =>
    (hlg en hen).elim
      (fun hh => mem_addLogCore_info
        (mem_addLogCore_info (mem_addLogCore_info hinfo0)) en hh)
      id
  have hcount : (addLogCore c'.e.state.logs ("Flash error: " ++ msg)
      LogType.error c'.e.clock).countP
      (fun en => decide (en.type = LogType.error)) = 1 :=
    countP_error_addLogCore _ _ _ hall
  simp only [chunksOf]
  simp [flashFirmware, h, ctxWrite, hw, failAt, h0j, ctxAddLog, engineAddLog,
    hrun, hwr, hfl, her, hcount, List.append_assoc]

set_option maxRecDepth 8192 in
/-- C4 witness: a 300-byte image whose second DATA frame write fails. -/
theorem flash_write_failure_witness :
    (flashFirmware (failAt 2 "boom") eConn (List.replicate 300 1) 0x10000).outcome =
      some "boom" ∧
    (flashFirmware (failAt 2 "boom") eConn
      (List.replicate 300 1) 0x10000).engine.state.isFlashing = false ∧
    (flashFirmware (failAt 2 "boom") eConn
      (List.replicate 300 1) 0x10000).engine.state.error = some "boom" ∧
    (flashFirmware (failAt 2 "boom") eConn (List.replicate 300 1) 0x10000).writes =
      encodeFlashBegin (List.replicate 300 1).length 0x10000 ::
        ((chunksOf (List.replicate 300 1)).take (2 - 1)).map encodeFlashData ∧
    (flashFirmware (failAt 2 "boom") eConn
      (List.replicate 300 1) 0x10000).engine.state.logs.countP
      (fun en => decide (en.type = LogType.error)) = 1 :=
  flash_write_failure eConn { readable := true, writable := true }
    (List.replicate 300 1) 0x10000 2 "boom" rfl rfl rfl (by decide) (by decide)

/-- C6 witness: the bound and the drop-oldest behaviour at a concrete
full log of 100 identical entries. -/
theorem log_bounded_drop_oldest_witness :
    (runLogOps []).length ≤ 100 ∧
    addLogCore (List.replicate 100 { message := "x", type := LogType.info, timestamp := 0 })
        "y" LogType.success 5 =
      (List.replicate 100 { message := "x", type := LogType.info, timestamp := 0 }).tail ++
        [{ message := "y", type := LogType.success, timestamp := 5 }] :=
  log_bounded_drop_oldest [] _ "y" LogType.success 5 (by simp)
